import Mathlib

/-!
Verification development for `caseware/runs-on-cache` (`src/custom/cache.ts`).

The TypeScript module is shallowly embedded: every external collaborator
(the remote cache client, the tar codec, the filesystem utilities, the
external archiver process) is a field of an explicit environment record
returning `Except JsError _`, and each of the four exported operations
(`restoreCache`, `restoreCacheSync`, `saveCache`, `saveCacheSync`) is a
Lean function from that environment and the caller's arguments to a pair
of the operation's result and a trace of the external calls and log lines
it performed, in order.  JavaScript `try`/`catch`/`finally` is modelled by
explicit wrapper functions (`restoreCatch`, `saveCatch`,
`withUnlinkFinally`); JavaScript string truthiness (`if (x)` on a string)
is modelled as `x ≠ ""`.  JS string `.length` is modelled by Lean's
codepoint length (they agree on the ASCII inputs used here).
-/

namespace RunsOnCache

/-- A JavaScript `Error`: the pipeline dispatches on the `name` field
(`error.name === ValidationError.name` etc.), so the embedding keeps the
name and the message and nothing else. -/
structure JsError where
  name : String
  message : String
  deriving DecidableEq, Repr

/-- `new ValidationError(message)` — sets `name` to `"ValidationError"`. -/
def mkValidationError (message : String) : JsError :=
  ⟨"ValidationError", message⟩

/-- `new ReserveCacheError(message)` — sets `name` to `"ReserveCacheError"`. -/
def mkReserveCacheError (message : String) : JsError :=
  ⟨"ReserveCacheError", message⟩

/-- The remote-side record returned by entry lookup.  `archiveLocation`
is optional: the source checks `!cacheEntry?.archiveLocation`, which is
also true for an empty string, so the location is kept as an
`Option String` and emptiness is checked separately. -/
structure CacheEntry where
  cacheKey : String
  archiveLocation : Option String
  deriving DecidableEq, Repr

/-- `checkPaths` (cache.ts line 34): `ValidationError` when the path list
is absent or empty. -/
def checkPaths (paths : List String) : Except JsError Unit :=
  if paths.length = 0 then
    .error (mkValidationError
      "Path Validation Error: At least one directory or file path is required")
  else
    .ok ()

/-- `checkKey` (cache.ts line 42): `ValidationError` when the key is longer
than 512 characters or contains a comma (`/^[^,]*$/` fails exactly on a
comma). -/
def checkKey (key : String) : Except JsError Unit :=
  if key.length > 512 then
    .error (mkValidationError
      ("Key Validation Error: " ++ key ++ " cannot be larger than 512 characters."))
  else if key.toList.contains ',' then
    .error (mkValidationError
      ("Key Validation Error: " ++ key ++ " cannot contain commas."))
  else
    .ok ()

/-- The `for (const key of keys) checkKey(key)` loop of `restoreCache`:
the first failing key throws. -/
def checkKeys : List String → Except JsError Unit
  | [] => .ok ()
  | k :: ks =>
    match checkKey k with
    | .error e => .error e
    | .ok _ => checkKeys ks

/-- Modelled from the spec: `getCompressionMethod` lives in
`src/utils/actionUtils.ts`, which is not among the provided sources.  Per
§4.2 it deterministically resolves the caller-supplied custom-compression
identifier (or the sentinel `"none"`) to a concrete compression method
used for archive file naming; none of the claims depend on the concrete
value, only on its determinism. -/
def getCompressionMethod (customCompression : String) : String :=
  if customCompression = "" ∨ customCompression = "none" then "gzip"
  else customCompression

/-- Modelled from the spec: `getCacheFileName` lives in
`src/utils/actionUtils.ts`, which is not among the provided sources.  Per
§4.2 the archive file name is determined by the compression method. -/
def getCacheFileName (method : String) : String :=
  "cache.tar." ++ method

/-- `toTarPath` (cache.ts line 265): replace every backslash with a
forward slash. -/
def toTarPath (p : String) : String :=
  p.map (fun c => if c = '\\' then '/' else c)

/-- One observable external call or log line of a pipeline run. -/
inductive Event where
  | getCacheEntryEv (keys : List String) (paths : List String)
  | getCacheEntrySyncEv (primaryKey : String) (paths : List String)
  | createTempDir
  | download (location : String) (dest : String)
  | downloadSync (location : String) (paths : List String)
  | listTarEv (archivePath : String)
  | extractTarEv (archivePath : String) (method : String)
  | createTarEv (folder : String) (paths : List String) (method : String)
  | exec (command : String)
  | getTarPathEv
  | upload (key : String) (paths : List String) (archivePath : String)
  | uploadSync (key : String) (paths : List String)
  | resolvePathsEv (paths : List String)
  | unlink (path : String)
  | info (message : String)
  | warning (message : String)
  | debug (message : String)
  deriving DecidableEq, Repr

/-- The environment of external collaborators the module imports:
`cacheHttpClient` (`./backend`), `@actions/cache` internals (`utils`,
`tar`), `child_process.execSync`, and process state.  Fallible calls
return `Except JsError _`. -/
structure Env where
  getCacheEntry : List String → List String → String → Bool →
    Except JsError (Option CacheEntry)
  getCacheEntrySync : String → List String → Except JsError (Option CacheEntry)
  createTempDirectory : Except JsError String
  downloadCache : String → String → Except JsError Unit
  downloadCacheSync : String → List String → Except JsError Unit
  extractTar : String → String → Except JsError Unit
  createTar : String → List String → String → Except JsError Unit
  listTar : String → String → Except JsError Unit
  getTarPath : Except JsError String
  execSync : String → Except JsError String
  getArchiveFileSizeInBytes : String → Except JsError Nat
  unlinkFile : String → Except JsError Unit
  resolvePaths : List String → Except JsError (List String)
  saveCacheHttp : String → List String → String → String → Bool → Nat →
    Except JsError Unit
  saveCacheHttpSync : String → List String → Except JsError Unit
  isDebug : Bool
  platform : String
  githubWorkspace : Option String
  cwd : String

/-- `process.env["GITHUB_WORKSPACE"] || process.cwd()` — an unset or
empty variable is falsy. -/
def Env.baseDir (env : Env) : String :=
  match env.githubWorkspace with
  | some w => if w = "" then env.cwd else w
  | none => env.cwd

/-- The check `!cacheEntry?.archiveLocation`: true when the entry is
absent, the location is absent, or the location is the empty string. -/
def entryMissing : Option CacheEntry → Bool
  | none => true
  | some entry =>
    match entry.archiveLocation with
    | none => true
    | some loc => loc = ""

/-- The location a present entry carries (the source only reads it after
the `entryMissing` check has failed). -/
def entryLocation : Option CacheEntry → String
  | none => ""
  | some entry => entry.archiveLocation.getD ""

/-- `Math.round(bytes / (1024 * 1024))` on a byte count. -/
def roundMB (bytes : Nat) : Nat :=
  (bytes + 524288) / 1048576

/-- The debug-only `listTar` step of restore (cache.ts lines 132–138):
with a (truthy) custom compression identifier `listTar` is unavailable
and only a debug line is printed; otherwise the archive is listed, which
can itself fail. -/
def listTarStep (env : Env) (customCompression compressionMethod : String)
    (archivePath : String) : Except JsError Unit × List Event :=
  if env.isDebug then
    if customCompression ≠ "" then
      (.ok (), [.debug "ListTar unavailable with custom compression method"])
    else
      match env.listTar archivePath compressionMethod with
      | .error e => (.error e, [.listTarEv archivePath])
      | .ok _ => (.ok (), [.listTarEv archivePath])
  else (.ok (), [])

/-- The three-way extraction dispatch of restore (cache.ts lines
147–185): (truthy custom compression, non-Windows) ⇒ external `tar`
process; (truthy custom compression, Windows) ⇒ bundled archiver binary
with quoted, slash-converted paths; otherwise the internal codec
`extractTar`. -/
def extractDispatch (env : Env) (customCompression compressionMethod : String)
    (archivePath matchedKey : String) :
    Except JsError (Option String) × List Event :=
  let baseDir := env.baseDir
  if customCompression ≠ "" ∧ env.platform ≠ "win32" then
    let compressionArgs :=
      if customCompression = "none" then ""
      else "--use-compress-program=" ++ customCompression
    let command := "tar -xf " ++ archivePath ++ " -P -C " ++ baseDir ++
      " " ++ compressionArgs
    match env.execSync command with
    | .error e =>
      (.error e, [.info ("Extracting " ++ archivePath ++ " to " ++ baseDir),
        .exec command])
    | .ok output =>
      (.ok (some matchedKey),
        [Event.info ("Extracting " ++ archivePath ++ " to " ++ baseDir),
         Event.exec command] ++
        (if output.length > 0 then [Event.info output] else []) ++
        [.info "Cache restored successfully"])
  else if customCompression ≠ "" ∧ env.platform = "win32" then
    match env.getTarPath with
    | .error e => (.error e, [.getTarPathEv])
    | .ok tarPath =>
      let args : List String :=
        (if customCompression ≠ "none" then
          ["--use-compress-program=\"lz4.exe\""]
        else []) ++
        ["-xf", "\"" ++ toTarPath archivePath ++ "\"", "-P",
         "-C", "\"" ++ toTarPath baseDir ++ "\""]
      let command := "\"" ++ tarPath ++ "\" " ++ String.intercalate " " args
      match env.execSync command with
      | .error e =>
        (.error e, [.getTarPathEv,
          .debug ("Executing command: " ++ command), .exec command])
      | .ok _ =>
        -- `execSync` with `stdio: 'inherit'` yields null output, so the
        -- post-exec output log never fires on this branch.
        (.ok (some matchedKey), [.getTarPathEv,
          .debug ("Executing command: " ++ command), .exec command,
          .info "Cache restored successfully"])
  else
    match env.extractTar archivePath compressionMethod with
    | .error e => (.error e, [.extractTarEv archivePath compressionMethod])
    | .ok _ =>
      (.ok (some matchedKey), [.extractTarEv archivePath compressionMethod,
        .info "Cache restored successfully"])

/-- Restore, from the download (cache.ts line 126) to the success return
(line 188).  `archivePath` has already been assigned.  Returns the
result of the `try` block together with the events this part produced. -/
def restoreAfterTemp (env : Env) (customCompression compressionMethod : String)
    (archivePath : String) (matchedKey : String) (location : String) :
    Except JsError (Option String) × List Event :=
  match env.downloadCache location archivePath with
  | .error e => (.error e, [.download location archivePath])
  | .ok _ =>
    match listTarStep env customCompression compressionMethod archivePath with
    | (.error e, tr) => (.error e, Event.download location archivePath :: tr)
    | (.ok _, tr) =>
      match env.getArchiveFileSizeInBytes archivePath with
      | .error e => (.error e, Event.download location archivePath :: tr)
      | .ok archiveFileSize =>
        let t := extractDispatch env customCompression compressionMethod
          archivePath matchedKey
        (t.1, Event.download location archivePath :: tr ++
          Event.info ("Cache Size: ~" ++ toString (roundMB archiveFileSize) ++
            " MB (" ++ toString archiveFileSize ++ " B)") :: t.2)

/-- The `try` block of `restoreCache` (cache.ts lines 103–188), minus the
leading lookup event.  The third component is the value of the mutable
`archivePath` variable when the block exits (it starts as `""` and is
assigned only after the temp directory is created): the `finally` block
unlinks whatever it holds. -/
def restoreTryRest (env : Env) (keys paths : List String)
    (customCompression compressionMethod : String)
    (lookupOnly enableCrossOsArchive : Bool) :
    Except JsError (Option String) × List Event × String :=
  match env.getCacheEntry keys paths compressionMethod enableCrossOsArchive with
  | .error e => (.error e, [], "")
  | .ok cacheEntry =>
    if entryMissing cacheEntry then
      -- Cache not found
      (.ok none, [], "")
    else
      let matchedKey := (cacheEntry.getD ⟨"", none⟩).cacheKey
      let location := entryLocation cacheEntry
      if lookupOnly then
        (.ok (some matchedKey), [.info "Lookup only - skipping download"], "")
      else
        match env.createTempDirectory with
        | .error e => (.error e, [.createTempDir], "")
        | .ok tempDir =>
          let archivePath := tempDir ++ "/" ++ getCacheFileName compressionMethod
          let t := restoreAfterTemp env customCompression compressionMethod
            archivePath matchedKey location
          (t.1, Event.createTempDir :: t.2, archivePath)

/-- The `try` block of `restoreCache` including the lookup event itself. -/
def restoreTryBody (env : Env) (keys paths : List String)
    (customCompression compressionMethod : String)
    (lookupOnly enableCrossOsArchive : Bool) :
    Except JsError (Option String) × List Event × String :=
  let t := restoreTryRest env keys paths customCompression compressionMethod
    lookupOnly enableCrossOsArchive
  (t.1, Event.getCacheEntryEv keys paths :: t.2.1, t.2.2)

/-- The `catch` clause shared by `restoreCache` and `restoreCacheSync`
(cache.ts lines 189–196 and 252–260): rethrow exactly when the caught
error's `name` is `"ValidationError"`, otherwise log a warning; control
then falls through to `return undefined`. -/
def restoreCatch (x : Except JsError (Option String) × List Event) :
    Except JsError (Option String) × List Event :=
  match x.1 with
  | .error e =>
    if e.name = "ValidationError" then (.error e, x.2)
    else (.ok none, x.2 ++ [.warning ("Failed to restore: " ++ e.message)])
  | .ok v => (.ok v, x.2)

/-- The `finally` clause of `restoreCache` and `saveCache` (cache.ts
lines 197–204 and 382–389): attempt `utils.unlinkFile(archivePath)`; a
failure of the deletion itself is only debug-logged.  The result
component is passed through untouched. -/
def withUnlinkFinally {α : Type} (env : Env) (archivePath : String)
    (x : Except JsError α × List Event) : Except JsError α × List Event :=
  (x.1, x.2 ++ Event.unlink archivePath ::
    (match env.unlinkFile archivePath with
     | .ok _ => []
     | .error d =>
       [Event.debug ("Failed to delete archive: " ++ d.name ++ ": " ++ d.message)]))

/-- `restoreCache` (cache.ts lines 76–207).  `restoreKeys` defaults to
`[]` and `customCompression` to `"none"` in the source; callers of the
model pass them explicitly.  `lookupOnly` stands for `options?.lookupOnly`. -/
def restoreCache (env : Env) (paths : List String) (primaryKey : String)
    (restoreKeys : List String) (lookupOnly enableCrossOsArchive : Bool)
    (customCompression : String) :
    Except JsError (Option String) × List Event :=
  match checkPaths paths with
  | .error e => (.error e, [])
  | .ok _ =>
    let keys := primaryKey :: restoreKeys
    if keys.length > 10 then
      (.error (mkValidationError
        "Key Validation Error: Keys are limited to a maximum of 10."), [])
    else
      match checkKeys keys with
      | .error e => (.error e, [])
      | .ok _ =>
        let compressionMethod := getCompressionMethod customCompression
        let t := restoreTryBody env keys paths customCompression
          compressionMethod lookupOnly enableCrossOsArchive
        withUnlinkFinally env t.2.2 (restoreCatch (t.1, t.2.1))

/-- The `try` block of `restoreCacheSync` (cache.ts lines 230–251). -/
def restoreSyncTryBody (env : Env) (primaryKey : String) (paths : List String)
    (lookupOnly : Bool) : Except JsError (Option String) × List Event :=
  let ev := Event.getCacheEntrySyncEv primaryKey paths
  match env.getCacheEntrySync primaryKey paths with
  | .error e => (.error e, [ev])
  | .ok cacheEntry =>
    if entryMissing cacheEntry then
      (.ok none, [ev])
    else
      let matchedKey := (cacheEntry.getD ⟨"", none⟩).cacheKey
      let location := entryLocation cacheEntry
      if lookupOnly then
        (.ok (some matchedKey), [ev, .info "Lookup only - skipping download"])
      else
        match env.downloadCacheSync location paths with
        | .error e => (.error e, [ev, .downloadSync location paths])
        | .ok _ =>
          (.ok (some matchedKey),
            [ev, .downloadSync location paths, .info "Cache restored successfully"])

/-- `restoreCacheSync` (cache.ts lines 219–263): primary key only, no
key-count limit, no archive file and no `finally` clause. -/
def restoreCacheSync (env : Env) (paths : List String) (primaryKey : String)
    (lookupOnly : Bool) : Except JsError (Option String) × List Event :=
  match checkPaths paths with
  | .error e => (.error e, [])
  | .ok _ =>
    match checkKey primaryKey with
    | .error e => (.error e, [])
    | .ok _ =>
      restoreCatch (restoreSyncTryBody env primaryKey paths lookupOnly)

/-- The three-way archive-creation dispatch of save (cache.ts lines
312–361), mirroring restore's extraction: (truthy custom compression,
non-Windows) ⇒ external `tar` process with POSIX format and
self-exclusion; (truthy custom compression, Windows) ⇒ bundled archiver
binary with quoted, slash-converted paths; otherwise the internal codec
`createTar` (plus a debug-only `listTar`). -/
def createDispatch (env : Env) (cachePaths : List String)
    (archiveFolder archivePath : String)
    (customCompression compressionMethod : String) :
    Except JsError Unit × List Event :=
  let baseDir := env.baseDir
  if customCompression ≠ "" ∧ env.platform ≠ "win32" then
    let compressionArgs :=
      if customCompression = "none" then ""
      else "--use-compress-program=" ++ customCompression
    let command := "tar --posix -cf " ++ archivePath ++ " --exclude " ++
      archivePath ++ " -P -C " ++ baseDir ++ " " ++
      String.intercalate " " cachePaths ++ " " ++ compressionArgs
    match env.execSync command with
    | .error e => (.error e, [.exec command])
    | .ok _ => (.ok (), [.exec command])
  else if customCompression ≠ "" ∧ env.platform = "win32" then
    match env.getTarPath with
    | .error e => (.error e, [.info "Entering win path", .getTarPathEv])
    | .ok tarPath =>
      let args : List String := ["--posix"] ++
        (if customCompression ≠ "none" then
          ["--use-compress-program=\"lz4.exe\""]
        else []) ++
        ["-cf", "\"" ++ toTarPath archivePath ++ "\"",
         "--exclude", "\"" ++ toTarPath archivePath ++ "\"", "-P",
         "-C", "\"" ++ toTarPath baseDir ++ "\""]
      let quotedCachePaths := cachePaths.map (fun p => "\"" ++ toTarPath p ++ "\"")
      let command := "\"" ++ tarPath ++ "\" " ++ String.intercalate " " args ++
        " " ++ String.intercalate " " quotedCachePaths
      match env.execSync command with
      | .error e =>
        (.error e, [.info "Entering win path", .getTarPathEv,
          .info ("Executing command: " ++ command), .exec command])
      | .ok _ =>
        (.ok (), [.info "Entering win path", .getTarPathEv,
          .info ("Executing command: " ++ command), .exec command])
  else
    match env.createTar archiveFolder cachePaths compressionMethod with
    | .error e =>
      (.error e, [.createTarEv archiveFolder cachePaths compressionMethod])
    | .ok _ =>
      if env.isDebug then
        match env.listTar archivePath compressionMethod with
        | .error e =>
          (.error e, [.createTarEv archiveFolder cachePaths compressionMethod,
            .listTarEv archivePath])
        | .ok _ =>
          (.ok (), [.createTarEv archiveFolder cachePaths compressionMethod,
            .listTarEv archivePath])
      else
        (.ok (), [.createTarEv archiveFolder cachePaths compressionMethod])

/-- The `try` block of `saveCache` (cache.ts lines 311–372): build the
archive via `createDispatch`, measure it, upload it.  Reaching the end
of the block is what sets `cacheId = 1`. -/
def saveTryBody (env : Env) (key : String) (paths cachePaths : List String)
    (archiveFolder archivePath : String)
    (customCompression compressionMethod : String)
    (enableCrossOsArchive : Bool) : Except JsError Unit × List Event :=
  match createDispatch env cachePaths archiveFolder archivePath
    customCompression compressionMethod with
  | (.error e, tr) => (.error e, tr)
  | (.ok _, tr) =>
    match env.getArchiveFileSizeInBytes archivePath with
    | .error e => (.error e, tr)
    | .ok archiveFileSize =>
      let tr := tr ++ [Event.info ("File Size: " ++ toString archiveFileSize),
        Event.upload key paths archivePath]
      match env.saveCacheHttp key paths archivePath compressionMethod
        enableCrossOsArchive archiveFileSize with
      | .error e => (.error e, tr)
      | .ok _ => (.ok (), tr)

/-- The `catch` clause shared by `saveCache` and `saveCacheSync`
(cache.ts lines 373–381 and 425–434) together with the trailing
`return cacheId`: success means `cacheId = 1`; a `"ValidationError"`
rethrows; a `"ReserveCacheError"` is logged at info level; any other
error is logged as a warning; every swallowed error leaves `cacheId`
at its initial `-1`. -/
def saveCatch (x : Except JsError Unit × List Event) :
    Except JsError Int × List Event :=
  match x.1 with
  | .ok _ => (.ok 1, x.2)
  | .error e =>
    if e.name = "ValidationError" then (.error e, x.2)
    else if e.name = "ReserveCacheError" then
      (.ok (-1), x.2 ++ [.info ("Failed to save: " ++ e.message)])
    else
      (.ok (-1), x.2 ++ [.warning ("Failed to save: " ++ e.message)])

/-- `saveCache` (cache.ts lines 278–392).  Path resolution, the
zero-resolved-paths check and the temp-directory creation happen before
the `try`, so their errors propagate; the `finally` unlinks the archive
path, which is always assigned by the time the `try` is entered. -/
def saveCache (env : Env) (paths : List String) (key : String)
    (enableCrossOsArchive : Bool) (customCompression : String) :
    Except JsError Int × List Event :=
  match checkPaths paths with
  | .error e => (.error e, [.info "Saving Cache via archive."])
  | .ok _ =>
    match checkKey key with
    | .error e => (.error e, [.info "Saving Cache via archive."])
    | .ok _ =>
      let compressionMethod := getCompressionMethod customCompression
      match env.resolvePaths paths with
      | .error e =>
        (.error e, [.info "Saving Cache via archive.", .resolvePathsEv paths])
      | .ok cachePaths =>
        let pre : List Event :=
          [.info "Saving Cache via archive.", .resolvePathsEv paths]
        if cachePaths.length = 0 then
          (.error ⟨"Error",
            "Path Validation Error: Path(s) specified in the action for caching do(es) not exist, hence no cache is being saved."⟩,
            pre)
        else
          match env.createTempDirectory with
          | .error e => (.error e, pre ++ [.createTempDir])
          | .ok archiveFolder =>
            let archivePath := archiveFolder ++ "/" ++
              getCacheFileName compressionMethod
            let t := saveTryBody env key paths cachePaths archiveFolder
              archivePath customCompression compressionMethod enableCrossOsArchive
            let r := withUnlinkFinally env archivePath (saveCatch t)
            (r.1, pre ++ [.createTempDir,
              .info ("Archive Path: " ++ archivePath)] ++ r.2)

/-- `saveCacheSync` (cache.ts lines 401–436): no archive, no `finally`;
path resolution and the zero-paths check again precede the `try`. -/
def saveCacheSync (env : Env) (paths : List String) (key : String) :
    Except JsError Int × List Event :=
  match checkPaths paths with
  | .error e => (.error e, [.info "Saving Cache via sync."])
  | .ok _ =>
    match checkKey key with
    | .error e => (.error e, [.info "Saving Cache via sync."])
    | .ok _ =>
      match env.resolvePaths paths with
      | .error e =>
        (.error e, [.info "Saving Cache via sync.", .resolvePathsEv paths])
      | .ok cachePaths =>
        let pre : List Event :=
          [.info "Saving Cache via sync.", .resolvePathsEv paths]
        if cachePaths.length = 0 then
          (.error ⟨"Error",
            "Path Validation Error: Path(s) specified in the action for caching do(es) not exist, hence no cache is being saved."⟩,
            pre)
        else
          let t :=
            match env.saveCacheHttpSync key paths with
            | .error e => (Except.error e, [Event.uploadSync key paths])
            | .ok _ => (Except.ok (), [Event.uploadSync key paths])
          let r := saveCatch t
          (r.1, pre ++ r.2)

/-- Is this event an archive download? -/
def Event.isDownload : Event → Bool
  | .download _ _ => true
  | _ => false

/-- Is this event a temp-directory creation? -/
def Event.isCreateTemp : Event → Bool
  | .createTempDir => true
  | _ => false

/-- Is this event an internal-codec extraction? -/
def Event.isExtract : Event → Bool
  | .extractTarEv _ _ => true
  | _ => false

/-- Is this event an internal-codec archive creation? -/
def Event.isCreateTar : Event → Bool
  | .createTarEv _ _ _ => true
  | _ => false

/-- Is this event an external archiver process invocation? -/
def Event.isExec : Event → Bool
  | .exec _ => true
  | _ => false

/-- Is this event a deletion attempt? -/
def Event.isUnlink : Event → Bool
  | .unlink _ => true
  | _ => false

/-- Is this event a warning log line? -/
def Event.isWarning : Event → Bool
  | .warning _ => true
  | _ => false

/-- Is this event an info log line? -/
def Event.isInfo : Event → Bool
  | .info _ => true
  | _ => false

/-- A stored entry used by the concrete test environments. -/
def hitEntry : CacheEntry := ⟨"build-42", some "s3://bucket/obj"⟩

/-- A concrete environment in which every collaborator succeeds: the
lookup always hits `hitEntry`, transfers and codec calls succeed, path
resolution is the identity. -/
def okEnv : Env where
  getCacheEntry := fun _ _ _ _ => .ok (some hitEntry)
  getCacheEntrySync := fun _ _ => .ok (some hitEntry)
  createTempDirectory := .ok "/tmp/cache-dir"
  downloadCache := fun _ _ => .ok ()
  downloadCacheSync := fun _ _ => .ok ()
  extractTar := fun _ _ => .ok ()
  createTar := fun _ _ _ => .ok ()
  listTar := fun _ _ => .ok ()
  getTarPath := .ok "C:/tar.exe"
  execSync := fun _ => .ok ""
  getArchiveFileSizeInBytes := fun _ => .ok 10
  unlinkFile := fun _ => .ok ()
  resolvePaths := fun ps => .ok ps
  saveCacheHttp := fun _ _ _ _ _ _ => .ok ()
  saveCacheHttpSync := fun _ _ => .ok ()
  isDebug := false
  platform := "linux"
  githubWorkspace := some "/workspace"
  cwd := "/cwd"

/-- `okEnv` with a lookup that finds nothing. -/
def missEnv : Env :=
  { okEnv with
    getCacheEntry := fun _ _ _ _ => .ok none
    getCacheEntrySync := fun _ _ => .ok none }

/-- `okEnv` with a failing download (an infrastructure error). -/
def netFailEnv : Env :=
  { okEnv with
    downloadCache := fun _ _ => .error ⟨"NetworkError", "connection reset"⟩
    downloadCacheSync := fun _ _ => .error ⟨"NetworkError", "connection reset"⟩ }

/-- `okEnv` whose remote client throws an error merely *named*
`"ValidationError"` from inside the transfer. -/
def fakeValidationEnv : Env :=
  { okEnv with
    downloadCache := fun _ _ => .error ⟨"ValidationError", "remote says no"⟩
    downloadCacheSync := fun _ _ => .error ⟨"ValidationError", "remote says no"⟩
    saveCacheHttp := fun _ _ _ _ _ _ => .error ⟨"ValidationError", "remote says no"⟩
    saveCacheHttpSync := fun _ _ => .error ⟨"ValidationError", "remote says no"⟩ }

/-- `okEnv` whose upload raises a reservation conflict. -/
def reserveEnv : Env :=
  { okEnv with
    saveCacheHttp := fun _ _ _ _ _ _ => .error (mkReserveCacheError "already reserved")
    saveCacheHttpSync := fun _ _ => .error (mkReserveCacheError "already reserved") }

/-- `okEnv` whose upload fails with a generic infrastructure error. -/
def uploadFailEnv : Env :=
  { okEnv with
    saveCacheHttp := fun _ _ _ _ _ _ => .error ⟨"Error", "upload interrupted"⟩
    saveCacheHttpSync := fun _ _ => .error ⟨"Error", "upload interrupted"⟩ }

/-- `okEnv` whose path resolution finds no existing path. -/
def emptyResolveEnv : Env :=
  { okEnv with resolvePaths := fun _ => .ok [] }

/-- `okEnv` whose archive deletion itself fails. -/
def unlinkFailEnv : Env :=
  { okEnv with unlinkFile := fun _ => .error ⟨"Error", "EPERM"⟩ }

/-! ### Helper lemmas -/

theorem checkPaths_error_name {paths : List String} {e : JsError}
    (h : checkPaths paths = .error e) : e.name = "ValidationError" := by
  unfold checkPaths at h
  split at h
  · simp only [Except.error.injEq] at h
    subst h
    rfl
  · exact Except.noConfusion h

theorem checkKey_error_name {k : String} {e : JsError}
    (h : checkKey k = .error e) : e.name = "ValidationError" := by
  unfold checkKey at h
  split at h
  · simp only [Except.error.injEq] at h
    subst h
    rfl
  · split at h
    · simp only [Except.error.injEq] at h
      subst h
      rfl
    · exact Except.noConfusion h

theorem checkKeys_error_name {ks : List String} {e : JsError}
    (h : checkKeys ks = .error e) : e.name = "ValidationError" := by
  induction ks with
  | nil => exact Except.noConfusion h
  | cons k ks ih =>
    unfold checkKeys at h
    split at h
    · rename_i e' heq
      simp only [Except.error.injEq] at h
      subst h
      exact checkKey_error_name heq
    · exact ih h

theorem checkPaths_ok_iff {paths : List String} :
    checkPaths paths = .ok () ↔ paths ≠ [] := by
  unfold checkPaths
  rcases paths with _ | ⟨p, ps⟩
  · simp
  · simp

theorem checkKey_ok_iff {k : String} :
    checkKey k = .ok () ↔ (k.length ≤ 512 ∧ ',' ∉ k.toList) := by
  unfold checkKey
  by_cases h1 : k.length > 512
  · simp only [if_pos h1]
    constructor
    · intro h
      exact Except.noConfusion h
    · intro h
      omega
  · by_cases h2 : k.toList.contains ',' = true
    · have h2' : ',' ∈ k.toList := by simpa using h2
      simp only [if_neg h1, if_pos h2]
      constructor
      · intro h
        exact Except.noConfusion h
      · intro h
        exact absurd h2' h.2
    · have h2' : ',' ∉ k.toList := by simpa using h2
      simp only [if_neg h1, if_neg h2]
      constructor
      · intro _
        exact ⟨by omega, h2'⟩
      · intro _
        trivial

theorem checkKeys_ok_iff {ks : List String} :
    checkKeys ks = .ok () ↔ ∀ k ∈ ks, checkKey k = .ok () := by
  induction ks with
  | nil => simp [checkKeys]
  | cons k ks ih =>
    unfold checkKeys
    rcases hck : checkKey k with ek | u
    · simp only [hck]
      constructor
      · intro h
        exact Except.noConfusion h
      · intro h
        have := h k (by simp)
        rw [hck] at this
        exact Except.noConfusion this
    · cases u
      simp only [hck]
      constructor
      · intro h k' hk'
        rw [List.mem_cons] at hk'
        rcases hk' with rfl | hk'
        · exact hck
        · exact ih.mp h k' hk'
      · intro h
        exact ih.mpr fun k' hk' => h k' (List.mem_cons_of_mem k hk')

theorem restoreCatch_fst_error {x : Except JsError (Option String) × List Event}
    {e : JsError} (h : (restoreCatch x).1 = .error e) :
    e.name = "ValidationError" ∧ x.1 = .error e := by
  unfold restoreCatch at h
  split at h
  · split at h <;> simp_all
  · simp_all

theorem saveCatch_fst_error {x : Except JsError Unit × List Event}
    {e : JsError} (h : (saveCatch x).1 = .error e) :
    e.name = "ValidationError" ∧ x.1 = .error e := by
  unfold saveCatch at h
  split at h
  · simp_all
  · split at h
    · simp_all
    · split at h <;> simp_all

theorem withUnlinkFinally_fst {α : Type} (env : Env) (p : String)
    (x : Except JsError α × List Event) :
    (withUnlinkFinally env p x).1 = x.1 := rfl

/-- `restoreCache` unfolded once validation has passed. -/
theorem restoreCache_eq_of_valid (env : Env) {paths : List String}
    {primaryKey : String} {restoreKeys : List String}
    (lookupOnly enableCrossOsArchive : Bool) (customCompression : String)
    (hv1 : checkPaths paths = .ok ())
    (hv2 : ¬ (primaryKey :: restoreKeys).length > 10)
    (hv3 : checkKeys (primaryKey :: restoreKeys) = .ok ()) :
    restoreCache env paths primaryKey restoreKeys lookupOnly
        enableCrossOsArchive customCompression =
      withUnlinkFinally env
        (restoreTryBody env (primaryKey :: restoreKeys) paths customCompression
          (getCompressionMethod customCompression) lookupOnly
          enableCrossOsArchive).2.2
        (restoreCatch
          ((restoreTryBody env (primaryKey :: restoreKeys) paths customCompression
            (getCompressionMethod customCompression) lookupOnly
            enableCrossOsArchive).1,
           (restoreTryBody env (primaryKey :: restoreKeys) paths customCompression
            (getCompressionMethod customCompression) lookupOnly
            enableCrossOsArchive).2.1)) := by
  unfold restoreCache
  rw [hv1]
  have hv2' : ¬ 10 < restoreKeys.length + 1 := by simpa using hv2
  simp [hv3, hv2']

theorem withUnlinkFinally_trace_any {α : Type} (env : Env) (p : String)
    (x : Except JsError α × List Event) (q : Event → Bool)
    (hq1 : q (Event.unlink p) = false) (hq2 : ∀ s, q (Event.debug s) = false) :
    (withUnlinkFinally env p x).2.any q = x.2.any q := by
  unfold withUnlinkFinally
  rcases env.unlinkFile p with d | u <;>
    simp [List.any_append, hq1, hq2]

theorem withUnlinkFinally_any_unlink {α : Type} (env : Env) (p : String)
    (x : Except JsError α × List Event) :
    (withUnlinkFinally env p x).2.any Event.isUnlink = true := by
  unfold withUnlinkFinally
  rcases env.unlinkFile p with d | u <;>
    simp [List.any_append, Event.isUnlink]

theorem withUnlinkFinally_debug_mem {α : Type} {env : Env} {p : String}
    (x : Except JsError α × List Event) {d : JsError}
    (h : env.unlinkFile p = .error d) :
    Event.debug ("Failed to delete archive: " ++ d.name ++ ": " ++ d.message) ∈
      (withUnlinkFinally env p x).2 := by
  unfold withUnlinkFinally
  rw [h]
  simp

theorem withUnlinkFinally_unlink_mem {α : Type} {env : Env} {p p' : String}
    {x : Except JsError α × List Event}
    (h : Event.unlink p' ∈ (withUnlinkFinally env p x).2) :
    Event.unlink p' ∈ x.2 ∨ p' = p := by
  unfold withUnlinkFinally at h
  rcases hu : env.unlinkFile p with d | u <;> rw [hu] at h <;> simp_all

theorem restoreCatch_trace_append
    (x : Except JsError (Option String) × List Event) :
    ∃ l, (restoreCatch x).2 = x.2 ++ l := by
  unfold restoreCatch
  rcases x1 : x.1 with e | v
  · by_cases hn : e.name = "ValidationError" <;> simp [hn]
  · simp

theorem restoreCatch_fst_ok {x : Except JsError (Option String) × List Event}
    {v : String} (h : (restoreCatch x).1 = .ok (some v)) :
    x.1 = .ok (some v) := by
  unfold restoreCatch at h
  rcases x1 : x.1 with e | w
  · rw [x1] at h
    by_cases hn : e.name = "ValidationError" <;> simp [hn] at h
  · rw [x1] at h
    simpa using h

theorem saveCatch_fst_ok {x : Except JsError Unit × List Event}
    (h : (saveCatch x).1 = .ok 1) : x.1 = .ok () := by
  unfold saveCatch at h
  rcases x1 : x.1 with e | u
  · rw [x1] at h
    by_cases hn : e.name = "ValidationError"
    · simp [hn] at h
    · by_cases hr : e.name = "ReserveCacheError" <;> simp [hn, hr] at h
  · cases u
    rfl

/-- `saveCache` unfolded once validation, path resolution and the
temp directory have succeeded. -/
theorem saveCache_eq_of_valid (env : Env) {paths cachePaths : List String}
    {key archiveFolder : String} (enableCrossOsArchive : Bool)
    (customCompression : String)
    (hv1 : checkPaths paths = .ok ())
    (hv2 : checkKey key = .ok ())
    (hr : env.resolvePaths paths = .ok cachePaths)
    (hnz : cachePaths ≠ [])
    (ht : env.createTempDirectory = .ok archiveFolder) :
    saveCache env paths key enableCrossOsArchive customCompression =
      (let archivePath := archiveFolder ++ "/" ++
        getCacheFileName (getCompressionMethod customCompression)
       let r := withUnlinkFinally env archivePath
        (saveCatch (saveTryBody env key paths cachePaths archiveFolder
          archivePath customCompression
          (getCompressionMethod customCompression) enableCrossOsArchive))
       (r.1, [Event.info "Saving Cache via archive.", Event.resolvePathsEv paths,
         Event.createTempDir, Event.info ("Archive Path: " ++ archivePath)] ++ r.2)) := by
  unfold saveCache
  rw [hv1, hv2, hr, ht]
  have hlen : ¬ cachePaths.length = 0 :=
    fun hl => hnz (List.length_eq_zero.mp hl)
  simp [hlen]

theorem extractDispatch_fst_ok {env : Env} {cc m ap mk : String}
    {v : Option String}
    (h : (extractDispatch env cc m ap mk).1 = .ok v) : v = some mk := by
  unfold extractDispatch at h
  dsimp only at h
  repeat' split at h
  all_goals simp_all

theorem restoreAfterTemp_fst_ok {env : Env} {cc m ap mk loc : String}
    {v : Option String}
    (h : (restoreAfterTemp env cc m ap mk loc).1 = .ok v) : v = some mk := by
  unfold restoreAfterTemp at h
  dsimp only at h
  repeat' split at h
  · exact Except.noConfusion h
  · exact Except.noConfusion h
  · exact Except.noConfusion h
  · exact extractDispatch_fst_ok h

theorem restoreTryRest_fst_ok {env : Env} {keys paths : List String}
    {cc m : String} {lo cross : Bool} {entry : CacheEntry} {v : String}
    (hlook : env.getCacheEntry keys paths m cross = .ok (some entry))
    (h : (restoreTryRest env keys paths cc m lo cross).1 = .ok (some v)) :
    v = entry.cacheKey := by
  unfold restoreTryRest at h
  rw [hlook] at h
  by_cases hm : entryMissing (some entry) = true
  · simp [hm] at h
  · simp only [Bool.not_eq_true] at hm
    simp only [hm] at h
    by_cases hlo : lo = true
    · simp only [hlo, if_true] at h
      simp only [Option.getD_some] at h
      simpa using h.symm
    · simp only [Bool.not_eq_true] at hlo
      simp only [hlo] at h
      rcases ht : env.createTempDirectory with e | tmp <;> rw [ht] at h
      · exact absurd h (by simp)
      · simp only at h
        have := restoreAfterTemp_fst_ok h
        simp only [Option.getD_some] at this
        simpa using this

theorem listTarStep_trace_any (env : Env) (cc m ap : String) (q : Event → Bool)
    (h1 : ∀ s, q (Event.debug s) = false) (h2 : q (Event.listTarEv ap) = false) :
    (listTarStep env cc m ap).2.any q = false := by
  unfold listTarStep
  split
  · split
    · simp [h1]
    · rcases env.listTar ap m with e | u <;> simp [h2]
  · simp

theorem extractDispatch_no_exec (env : Env) (m ap mk : String) :
    (extractDispatch env "" m ap mk).2.any Event.isExec = false := by
  rcases h : env.extractTar ap m with e | u <;>
    simp [extractDispatch, h, Event.isExec]

theorem extractDispatch_any_extract (env : Env) (m ap mk : String) :
    (extractDispatch env "" m ap mk).2.any Event.isExtract = true := by
  rcases h : env.extractTar ap m with e | u <;>
    simp [extractDispatch, h, Event.isExtract]

theorem restoreAfterTemp_no_exec (env : Env) (m ap mk loc : String) :
    (restoreAfterTemp env "" m ap mk loc).2.any Event.isExec = false := by
  have hl : (listTarStep env "" m ap).2.any Event.isExec = false :=
    listTarStep_trace_any env "" m ap Event.isExec (fun s => rfl) rfl
  have he := extractDispatch_no_exec env m ap mk
  unfold restoreAfterTemp
  rcases hd : env.downloadCache loc ap with e | u
  · simp [Event.isExec]
  · rcases hls : listTarStep env "" m ap with ⟨els | uls, tr⟩
    · simp_all [Event.isExec]
    · rcases hs : env.getArchiveFileSizeInBytes ap with e | n
      · simp_all [Event.isExec]
      · simp_all [Event.isExec, List.any_append]

theorem restoreAfterTemp_ok_extract {env : Env} {m ap mk loc : String}
    {v : Option String}
    (h : (restoreAfterTemp env "" m ap mk loc).1 = .ok v) :
    (restoreAfterTemp env "" m ap mk loc).2.any Event.isExtract = true := by
  have he := extractDispatch_any_extract env m ap mk
  unfold restoreAfterTemp at h ⊢
  rcases hd : env.downloadCache loc ap with e | u
  · simp [hd] at h
  · simp only [hd] at h ⊢
    rcases hls : listTarStep env "" m ap with ⟨els | uls, tr⟩
    · simp [hls] at h
    · simp only [hls] at h ⊢
      rcases hs : env.getArchiveFileSizeInBytes ap with e | n
      · simp [hs] at h
      · simp only [hs] at h ⊢
        simp [Event.isExtract, List.any_append, he]

theorem restoreTryRest_no_exec (env : Env) (keys paths : List String)
    (m : String) (lo cross : Bool) :
    (restoreTryRest env keys paths "" m lo cross).2.1.any Event.isExec = false := by
  unfold restoreTryRest
  rcases hg : env.getCacheEntry keys paths m cross with e | ce
  · simp [Event.isExec]
  · by_cases hm : entryMissing ce = true
    · simp [hm, Event.isExec]
    · simp only [Bool.not_eq_true] at hm
      simp only [hm]
      by_cases hlo : lo = true
      · simp [hlo, Event.isExec]
      · simp only [Bool.not_eq_true] at hlo
        simp only [hlo]
        rcases ht : env.createTempDirectory with e | tmp
        · simp [Event.isExec]
        · simp [Event.isExec, restoreAfterTemp_no_exec]

theorem createDispatch_no_exec (env : Env) (cachePaths : List String)
    (folder ap m : String) :
    (createDispatch env cachePaths folder ap "" m).2.any Event.isExec = false := by
  unfold createDispatch
  dsimp only
  repeat' split
  all_goals simp_all [Event.isExec]

theorem createDispatch_any_createTar (env : Env) (cachePaths : List String)
    (folder ap m : String) :
    (createDispatch env cachePaths folder ap "" m).2.any Event.isCreateTar = true := by
  unfold createDispatch
  dsimp only
  repeat' split
  all_goals simp_all [Event.isCreateTar]

theorem saveTryBody_no_exec (env : Env) (key : String)
    (paths cachePaths : List String) (archiveFolder archivePath m : String)
    (cross : Bool) :
    (saveTryBody env key paths cachePaths archiveFolder archivePath "" m
      cross).2.any Event.isExec = false := by
  have hc := createDispatch_no_exec env cachePaths archiveFolder archivePath m
  unfold saveTryBody
  rcases hcd : createDispatch env cachePaths archiveFolder archivePath "" m
      with ⟨ec | uc, tr⟩
  · simp_all [Event.isExec]
  · rcases hs : env.getArchiveFileSizeInBytes archivePath with e | n
    · simp_all [Event.isExec]
    · rcases hup : env.saveCacheHttp key paths archivePath m cross n with e | u <;>
        simp_all [Event.isExec, List.any_append]

theorem saveTryBody_any_createTar (env : Env) (key : String)
    (paths cachePaths : List String) (archiveFolder archivePath m : String)
    (cross : Bool) :
    (saveTryBody env key paths cachePaths archiveFolder archivePath "" m
      cross).2.any Event.isCreateTar = true := by
  have hc := createDispatch_any_createTar env cachePaths archiveFolder archivePath m
  unfold saveTryBody
  rcases hcd : createDispatch env cachePaths archiveFolder archivePath "" m
      with ⟨ec | uc, tr⟩
  · simp_all [Event.isCreateTar]
  · rcases hs : env.getArchiveFileSizeInBytes archivePath with e | n
    · simp_all [Event.isCreateTar]
    · rcases hup : env.saveCacheHttp key paths archivePath m cross n with e | u <;>
        simp_all [Event.isCreateTar, List.any_append]

theorem restoreCatch_trace_any (x : Except JsError (Option String) × List Event)
    (q : Event → Bool) (hq : ∀ s, q (Event.warning s) = false) :
    (restoreCatch x).2.any q = x.2.any q := by
  unfold restoreCatch
  rcases x1 : x.1 with e | v
  · by_cases hn : e.name = "ValidationError" <;>
      simp [hn, hq, List.any_append]
  · simp

theorem saveCatch_trace_any (x : Except JsError Unit × List Event)
    (q : Event → Bool) (hqW : ∀ s, q (Event.warning s) = false)
    (hqI : ∀ s, q (Event.info s) = false) :
    (saveCatch x).2.any q = x.2.any q := by
  unfold saveCatch
  rcases x1 : x.1 with e | u
  · by_cases hn : e.name = "ValidationError"
    · simp [hn]
    · by_cases hr : e.name = "ReserveCacheError" <;>
        simp [hn, hr, hqW, hqI, List.any_append]
  · simp

/-- Replace only the `unlinkFile` collaborator of an environment; the
pipelines consult `unlinkFile` exclusively in their `finally` clauses. -/
def Env.withUnlink (env : Env) (f : String → Except JsError Unit) : Env :=
  { env with unlinkFile := f }

theorem withUnlink_resolvePaths (env : Env) (f : String → Except JsError Unit) :
    (Env.withUnlink env f).resolvePaths = env.resolvePaths := rfl

theorem withUnlink_createTempDirectory (env : Env)
    (f : String → Except JsError Unit) :
    (Env.withUnlink env f).createTempDirectory = env.createTempDirectory := rfl

theorem restoreTryBody_withUnlink (env : Env)
    (f : String → Except JsError Unit) (keys paths : List String)
    (cc m : String) (lo cross : Bool) :
    restoreTryBody (Env.withUnlink env f) keys paths cc m lo cross =
      restoreTryBody env keys paths cc m lo cross := rfl

theorem saveTryBody_withUnlink (env : Env) (f : String → Except JsError Unit)
    (key : String) (paths cachePaths : List String) (folder ap cc m : String)
    (cross : Bool) :
    saveTryBody (Env.withUnlink env f) key paths cachePaths folder ap cc m cross =
      saveTryBody env key paths cachePaths folder ap cc m cross := rfl

theorem withUnlink_restoreCatch_head {env : Env} {p : String}
    {x : Except JsError (Option String) × List Event} {a : Event}
    {rest : List Event} (hx : x.2 = a :: rest) :
    (withUnlinkFinally env p (restoreCatch x)).2.head? = some a := by
  rcases restoreCatch_trace_append x with ⟨l, hl⟩
  unfold withUnlinkFinally
  rw [hl, hx]
  simp

/-! ### Claims -/

/-- C2: for every input that passes path and key validation, `restoreCache`
(and `restoreCacheSync`) propagates an error to the caller only if that
error's name is `ValidationError`; any other error raised by the `try`
block is caught, a warning is logged, and the function returns `none`
(`undefined`), the same result as a cache miss. -/
theorem restore_swallows_all_but_validation (env : Env) (paths : List String)
    (primaryKey : String) (restoreKeys : List String)
    (lookupOnly enableCrossOsArchive : Bool) (customCompression : String) :
    (∀ e, (restoreCache env paths primaryKey restoreKeys lookupOnly
        enableCrossOsArchive customCompression).1 = .error e →
      e.name = "ValidationError") ∧
    (∀ e, (restoreCacheSync env paths primaryKey lookupOnly).1 = .error e →
      e.name = "ValidationError") ∧
    (∀ e tr ap,
      checkPaths paths = .ok () →
      ¬ (primaryKey :: restoreKeys).length > 10 →
      checkKeys (primaryKey :: restoreKeys) = .ok () →
      restoreTryBody env (primaryKey :: restoreKeys) paths customCompression
        (getCompressionMethod customCompression) lookupOnly enableCrossOsArchive
        = (.error e, tr, ap) →
      e.name ≠ "ValidationError" →
      (restoreCache env paths primaryKey restoreKeys lookupOnly
        enableCrossOsArchive customCompression).1 = .ok none ∧
      (restoreCache env paths primaryKey restoreKeys lookupOnly
        enableCrossOsArchive customCompression).2.any Event.isWarning = true) := by
  refine ⟨?_, ?_, ?_⟩
  · intro e he
    unfold restoreCache at he
    rcases hcp : checkPaths paths with e1 | u1
    · rw [hcp] at he
      simp only [Except.error.injEq] at he
      subst he
      exact checkPaths_error_name hcp
    · rw [hcp] at he
      by_cases hlen : (primaryKey :: restoreKeys).length > 10
      · rw [if_pos hlen] at he
        simp only [Except.error.injEq] at he
        subst he
        rfl
      · rw [if_neg hlen] at he
        rcases hck : checkKeys (primaryKey :: restoreKeys) with e2 | u2
        · rw [hck] at he
          simp only [Except.error.injEq] at he
          subst he
          exact checkKeys_error_name hck
        · rw [hck] at he
          simp only at he
          rw [withUnlinkFinally_fst] at he
          exact (restoreCatch_fst_error he).1
  · intro e he
    unfold restoreCacheSync at he
    rcases hcp : checkPaths paths with e1 | u1
    · rw [hcp] at he
      simp only [Except.error.injEq] at he
      subst he
      exact checkPaths_error_name hcp
    · rw [hcp] at he
      rcases hck : checkKey primaryKey with e2 | u2
      · rw [hck] at he
        simp only [Except.error.injEq] at he
        subst he
        exact checkKey_error_name hck
      · rw [hck] at he
        simp only at he
        exact (restoreCatch_fst_error he).1
  · intro e tr ap hv1 hv2 hv3 htb hne
    rw [restoreCache_eq_of_valid env lookupOnly enableCrossOsArchive
      customCompression hv1 hv2 hv3, htb]
    constructor
    · simp [withUnlinkFinally, restoreCatch, hne]
    · rcases hu : env.unlinkFile ap with d | u <;>
        simp [withUnlinkFinally, restoreCatch, hne, hu, Event.isWarning,
          List.any_append]

/-- C2 witness: a concrete download failure (`netFailEnv`) on a validated
input is swallowed, logged as a warning, and reported as a miss. -/
theorem restore_swallows_all_but_validation_witness :
    (restoreCache netFailEnv ["./dist"] "k1" [] false false "none").1 = .ok none ∧
    (restoreCache netFailEnv ["./dist"] "k1" [] false false
      "none").2.any Event.isWarning = true :=
  (restore_swallows_all_but_validation netFailEnv ["./dist"] "k1" [] false false
    "none").2.2 ⟨"NetworkError", "connection reset"⟩
    [Event.getCacheEntryEv ["k1"] ["./dist"], Event.createTempDir,
     Event.download "s3://bucket/obj" "/tmp/cache-dir/cache.tar.gzip"]
    "/tmp/cache-dir/cache.tar.gzip"
    rfl (by decide) rfl rfl (by decide)

/-- C5: `restoreCache` raises a `ValidationError` before any external
call (an empty trace) exactly when the path set is empty, or the key
list (primary plus restore keys) has more than 10 entries, or some key
is longer than 512 characters or contains a comma; in particular a key
of exactly 512 comma-free characters passes validation. -/
theorem restore_validation_error_iff (env : Env) (paths : List String)
    (primaryKey : String) (restoreKeys : List String)
    (lookupOnly enableCrossOsArchive : Bool) (customCompression : String) :
    (∃ e, restoreCache env paths primaryKey restoreKeys lookupOnly
        enableCrossOsArchive customCompression = (.error e, []) ∧
      e.name = "ValidationError") ↔
    (paths = [] ∨ 10 < (primaryKey :: restoreKeys).length ∨
      ∃ k ∈ primaryKey :: restoreKeys, 512 < k.length ∨ ',' ∈ k.toList) := by
  constructor
  · intro ⟨e, hres, hname⟩
    by_contra hC
    push_neg at hC
    obtain ⟨hp, hlen, hkeys⟩ := hC
    have hv1 : checkPaths paths = .ok () := checkPaths_ok_iff.mpr hp
    have hv3 : checkKeys (primaryKey :: restoreKeys) = .ok () :=
      checkKeys_ok_iff.mpr (fun k hk =>
        checkKey_ok_iff.mpr ⟨by have := (hkeys k hk).1; omega, (hkeys k hk).2⟩)
    rw [restoreCache_eq_of_valid env lookupOnly enableCrossOsArchive
      customCompression hv1 (by omega) hv3] at hres
    have htrace := congrArg Prod.snd hres
    simp only [withUnlinkFinally] at htrace
    rcases restoreCatch_trace_append
      ((restoreTryBody env (primaryKey :: restoreKeys) paths customCompression
        (getCompressionMethod customCompression) lookupOnly
        enableCrossOsArchive).1,
       (restoreTryBody env (primaryKey :: restoreKeys) paths customCompression
        (getCompressionMethod customCompression) lookupOnly
        enableCrossOsArchive).2.1) with ⟨l, hl⟩
    rw [hl] at htrace
    have : (restoreTryBody env (primaryKey :: restoreKeys) paths
        customCompression (getCompressionMethod customCompression) lookupOnly
        enableCrossOsArchive).2.1 = Event.getCacheEntryEv
          (primaryKey :: restoreKeys) paths ::
        (restoreTryRest env (primaryKey :: restoreKeys) paths customCompression
          (getCompressionMethod customCompression) lookupOnly
          enableCrossOsArchive).2.1 := rfl
    rw [this] at htrace
    simp at htrace
  · intro h
    rcases hcp : checkPaths paths with e1 | u1
    · refine ⟨e1, ?_, checkPaths_error_name hcp⟩
      unfold restoreCache
      rw [hcp]
    · have hp : paths ≠ [] := checkPaths_ok_iff.mp (by rw [hcp])
      rcases h with h | h | ⟨k, hk, hbad⟩
      · exact absurd h hp
      · refine ⟨mkValidationError
          "Key Validation Error: Keys are limited to a maximum of 10.", ?_, rfl⟩
        unfold restoreCache
        rw [hcp, if_pos h]
      · by_cases hlen : (primaryKey :: restoreKeys).length > 10
        · refine ⟨mkValidationError
            "Key Validation Error: Keys are limited to a maximum of 10.", ?_, rfl⟩
          unfold restoreCache
          rw [hcp, if_pos hlen]
        · have hkbad : checkKey k ≠ .ok () := by
            intro hok
            rcases checkKey_ok_iff.mp hok with ⟨h1, h2⟩
            rcases hbad with hb | hb
            · omega
            · exact h2 hb
          rcases hck : checkKeys (primaryKey :: restoreKeys) with e2 | u2
          · refine ⟨e2, ?_, checkKeys_error_name hck⟩
            unfold restoreCache
            rw [hcp, if_neg hlen, hck]
          · exact absurd (checkKeys_ok_iff.mp (by rw [hck]) k hk) hkbad

/-- C6: for every restore where the remote lookup returns no entry, or an
entry whose `archiveLocation` is absent (falsy), `restoreCache` returns
`none` (`undefined`) without raising and without attempting any
download. -/
theorem restore_miss_returns_none (env : Env) (paths : List String)
    (primaryKey : String) (restoreKeys : List String)
    (lookupOnly enableCrossOsArchive : Bool) (customCompression : String)
    (ce : Option CacheEntry)
    (hv1 : checkPaths paths = .ok ())
    (hv2 : ¬ (primaryKey :: restoreKeys).length > 10)
    (hv3 : checkKeys (primaryKey :: restoreKeys) = .ok ())
    (hlook : env.getCacheEntry (primaryKey :: restoreKeys) paths
      (getCompressionMethod customCompression) enableCrossOsArchive = .ok ce)
    (hmiss : entryMissing ce = true) :
    (restoreCache env paths primaryKey restoreKeys lookupOnly
      enableCrossOsArchive customCompression).1 = .ok none ∧
    (restoreCache env paths primaryKey restoreKeys lookupOnly
      enableCrossOsArchive customCompression).2.any Event.isDownload = false := by
  rw [restoreCache_eq_of_valid env lookupOnly enableCrossOsArchive
    customCompression hv1 hv2 hv3]
  have htb : restoreTryBody env (primaryKey :: restoreKeys) paths
      customCompression (getCompressionMethod customCompression) lookupOnly
      enableCrossOsArchive =
      (.ok none, [Event.getCacheEntryEv (primaryKey :: restoreKeys) paths], "") := by
    unfold restoreTryBody restoreTryRest
    rw [hlook]
    simp [hmiss]
  rw [htb]
  constructor
  · rfl
  · rw [withUnlinkFinally_trace_any env "" _ Event.isDownload rfl (fun s => rfl)]
    simp [restoreCatch, Event.isDownload]

/-- C6 witness: a concrete miss (`missEnv`) returns `none` and the trace
shows no download. -/
theorem restore_miss_returns_none_witness :
    (restoreCache missEnv ["./dist"] "build-999" [] false false "none").1 = .ok none ∧
    (restoreCache missEnv ["./dist"] "build-999" [] false false
      "none").2.any Event.isDownload = false :=
  restore_miss_returns_none missEnv ["./dist"] "build-999" [] false false "none"
    none rfl (by decide) rfl rfl rfl

/-- C7: a lookup-only restore that hits an entry with a (truthy)
`archiveLocation` returns that entry's `cacheKey` and never creates a
temp directory, downloads, extracts, runs the external archiver, or
unlinks anything but the empty sentinel path (no archive file ever
exists to delete). -/
theorem restore_lookup_only_no_transfer (env : Env) (paths : List String)
    (primaryKey : String) (restoreKeys : List String)
    (enableCrossOsArchive : Bool) (customCompression : String)
    (entry : CacheEntry)
    (hv1 : checkPaths paths = .ok ())
    (hv2 : ¬ (primaryKey :: restoreKeys).length > 10)
    (hv3 : checkKeys (primaryKey :: restoreKeys) = .ok ())
    (hlook : env.getCacheEntry (primaryKey :: restoreKeys) paths
      (getCompressionMethod customCompression) enableCrossOsArchive
      = .ok (some entry))
    (hloc : entryMissing (some entry) = false) :
    (restoreCache env paths primaryKey restoreKeys true
      enableCrossOsArchive customCompression).1 = .ok (some entry.cacheKey) ∧
    (restoreCache env paths primaryKey restoreKeys true
      enableCrossOsArchive customCompression).2.any Event.isDownload = false ∧
    (restoreCache env paths primaryKey restoreKeys true
      enableCrossOsArchive customCompression).2.any Event.isCreateTemp = false ∧
    (restoreCache env paths primaryKey restoreKeys true
      enableCrossOsArchive customCompression).2.any Event.isExtract = false ∧
    (restoreCache env paths primaryKey restoreKeys true
      enableCrossOsArchive customCompression).2.any Event.isExec = false ∧
    (∀ p, Event.unlink p ∈ (restoreCache env paths primaryKey restoreKeys true
      enableCrossOsArchive customCompression).2 → p = "") := by
  rw [restoreCache_eq_of_valid env true enableCrossOsArchive
    customCompression hv1 hv2 hv3]
  have htb : restoreTryBody env (primaryKey :: restoreKeys) paths
      customCompression (getCompressionMethod customCompression) true
      enableCrossOsArchive =
      (.ok (some entry.cacheKey),
       [Event.getCacheEntryEv (primaryKey :: restoreKeys) paths,
        Event.info "Lookup only - skipping download"], "") := by
    unfold restoreTryBody restoreTryRest
    rw [hlook]
    simp [hloc]
  rw [htb]
  refine ⟨rfl, ?_, ?_, ?_, ?_, ?_⟩
  · rw [withUnlinkFinally_trace_any env "" _ Event.isDownload rfl (fun s => rfl)]
    simp [restoreCatch, Event.isDownload]
  · rw [withUnlinkFinally_trace_any env "" _ Event.isCreateTemp rfl (fun s => rfl)]
    simp [restoreCatch, Event.isCreateTemp]
  · rw [withUnlinkFinally_trace_any env "" _ Event.isExtract rfl (fun s => rfl)]
    simp [restoreCatch, Event.isExtract]
  · rw [withUnlinkFinally_trace_any env "" _ Event.isExec rfl (fun s => rfl)]
    simp [restoreCatch, Event.isExec]
  · intro p hp
    rcases withUnlinkFinally_unlink_mem hp with hp | hp
    · simp [restoreCatch] at hp
    · exact hp

/-- C7 witness: a concrete lookup-only hit on `okEnv` reports the matched
key and the trace shows no transfer or archive-file activity. -/
theorem restore_lookup_only_no_transfer_witness :
    (restoreCache okEnv ["./dist"] "k1" [] true false "none").1
      = .ok (some "build-42") ∧
    (restoreCache okEnv ["./dist"] "k1" [] true false
      "none").2.any Event.isDownload = false := by
  have h := restore_lookup_only_no_transfer okEnv ["./dist"] "k1" [] false "none"
    hitEntry rfl (by decide) rfl rfl rfl
  exact ⟨h.1, h.2.1⟩

/-- C8: for every validated restore with primary key `K1` and restore
keys `[K2, ..., Kn]`, the remote lookup is the first external call and
receives exactly the ordered list `[K1, K2, ..., Kn]`; and whenever
`restoreCache` reports a hit, the reported key is the `cacheKey` field
of the entry the lookup returned. -/
theorem restore_key_order_and_matched_key (env : Env) (paths : List String)
    (primaryKey : String) (restoreKeys : List String)
    (lookupOnly enableCrossOsArchive : Bool) (customCompression : String)
    (entry : CacheEntry)
    (hv1 : checkPaths paths = .ok ())
    (hv2 : ¬ (primaryKey :: restoreKeys).length > 10)
    (hv3 : checkKeys (primaryKey :: restoreKeys) = .ok ())
    (hlook : env.getCacheEntry (primaryKey :: restoreKeys) paths
      (getCompressionMethod customCompression) enableCrossOsArchive
      = .ok (some entry)) :
    (restoreCache env paths primaryKey restoreKeys lookupOnly
      enableCrossOsArchive customCompression).2.head?
      = some (Event.getCacheEntryEv (primaryKey :: restoreKeys) paths) ∧
    (∀ k, (restoreCache env paths primaryKey restoreKeys lookupOnly
      enableCrossOsArchive customCompression).1 = .ok (some k) →
      k = entry.cacheKey) := by
  rw [restoreCache_eq_of_valid env lookupOnly enableCrossOsArchive
    customCompression hv1 hv2 hv3]
  constructor
  · apply withUnlink_restoreCatch_head
    rfl
  · intro k hres
    rw [withUnlinkFinally_fst] at hres
    have h1 := restoreCatch_fst_ok hres
    exact restoreTryRest_fst_ok hlook h1

/-- C8 witness: with keys `["k1", "k2"]` against `okEnv` the lookup event
heads the trace with the keys in order, and the hit reports
`hitEntry.cacheKey`. -/
theorem restore_key_order_and_matched_key_witness :
    (restoreCache okEnv ["./dist"] "k1" ["k2"] false false "none").2.head?
      = some (Event.getCacheEntryEv ["k1", "k2"] ["./dist"]) ∧
    "build-42" = hitEntry.cacheKey := by
  have h := restore_key_order_and_matched_key okEnv ["./dist"] "k1" ["k2"]
    false false "none" hitEntry rfl (by decide) rfl rfl
  exact ⟨h.1, h.2 "build-42" rfl⟩

/-- C9: a save whose non-empty input path set resolves to zero existing
paths fails by raising an error that is *not* a `ValidationError`
(`saveCache` and `saveCacheSync` alike), rather than swallowing the
failure into the `-1` sentinel. -/
theorem save_empty_resolution_fatal (env : Env) (paths : List String)
    (key : String) (enableCrossOsArchive : Bool) (customCompression : String)
    (hv1 : checkPaths paths = .ok ())
    (hv2 : checkKey key = .ok ())
    (hr : env.resolvePaths paths = .ok []) :
    (∃ e, (saveCache env paths key enableCrossOsArchive
        customCompression).1 = .error e ∧ e.name ≠ "ValidationError") ∧
    (∃ e, (saveCacheSync env paths key).1 = .error e ∧
      e.name ≠ "ValidationError") := by
  constructor
  · refine ⟨⟨"Error",
      "Path Validation Error: Path(s) specified in the action for caching do(es) not exist, hence no cache is being saved."⟩,
      ?_, by decide⟩
    unfold saveCache
    rw [hv1, hv2, hr]
    simp
  · refine ⟨⟨"Error",
      "Path Validation Error: Path(s) specified in the action for caching do(es) not exist, hence no cache is being saved."⟩,
      ?_, by decide⟩
    unfold saveCacheSync
    rw [hv1, hv2, hr]
    simp

/-- C9 witness: `emptyResolveEnv` resolves every path set to `[]`; the
save raises and the raised error is not a `ValidationError`. -/
theorem save_empty_resolution_fatal_witness :
    (∃ e, (saveCache emptyResolveEnv ["./dist"] "build-123" false "none").1
      = .error e ∧ e.name ≠ "ValidationError") ∧
    (∃ e, (saveCacheSync emptyResolveEnv ["./dist"] "build-123").1
      = .error e ∧ e.name ≠ "ValidationError") :=
  save_empty_resolution_fatal emptyResolveEnv ["./dist"] "build-123" false
    "none" rfl rfl rfl

/-- C3: a validated save whose archive creation and upload complete
returns `CacheId` 1; if the `try` block raises any non-`ValidationError`
error — a `ReserveCacheError` reservation conflict included — the error
is swallowed and the `-1` sentinel is returned.  The same dichotomy holds
for `saveCacheSync` around its upload call. -/
theorem save_returns_one_or_sentinel (env : Env) (paths cachePaths : List String)
    (key archiveFolder : String) (enableCrossOsArchive : Bool)
    (customCompression : String)
    (hv1 : checkPaths paths = .ok ())
    (hv2 : checkKey key = .ok ())
    (hr : env.resolvePaths paths = .ok cachePaths)
    (hnz : cachePaths ≠ [])
    (ht : env.createTempDirectory = .ok archiveFolder) :
    (∀ tr, saveTryBody env key paths cachePaths archiveFolder
        (archiveFolder ++ "/" ++
          getCacheFileName (getCompressionMethod customCompression))
        customCompression (getCompressionMethod customCompression)
        enableCrossOsArchive = (.ok (), tr) →
      (saveCache env paths key enableCrossOsArchive
        customCompression).1 = .ok 1) ∧
    (∀ e tr, saveTryBody env key paths cachePaths archiveFolder
        (archiveFolder ++ "/" ++
          getCacheFileName (getCompressionMethod customCompression))
        customCompression (getCompressionMethod customCompression)
        enableCrossOsArchive = (.error e, tr) →
      e.name ≠ "ValidationError" →
      (saveCache env paths key enableCrossOsArchive
        customCompression).1 = .ok (-1)) ∧
    (env.saveCacheHttpSync key paths = .ok () →
      (saveCacheSync env paths key).1 = .ok 1) ∧
    (∀ e, env.saveCacheHttpSync key paths = .error e →
      e.name ≠ "ValidationError" →
      (saveCacheSync env paths key).1 = .ok (-1)) := by
  have hlen : ¬ cachePaths.length = 0 :=
    fun hl => hnz (List.length_eq_zero.mp hl)
  refine ⟨?_, ?_, ?_, ?_⟩
  · intro tr htb
    rw [saveCache_eq_of_valid env enableCrossOsArchive customCompression
      hv1 hv2 hr hnz ht]
    dsimp only
    rw [withUnlinkFinally_fst, htb]
    rfl
  · intro e tr htb hne
    rw [saveCache_eq_of_valid env enableCrossOsArchive customCompression
      hv1 hv2 hr hnz ht]
    dsimp only
    rw [withUnlinkFinally_fst, htb]
    by_cases hre : e.name = "ReserveCacheError" <;> simp [saveCatch, hne, hre]
  · intro hok
    unfold saveCacheSync
    rw [hv1, hv2, hr]
    simp [hlen, hok, saveCatch]
  · intro e herr hne
    unfold saveCacheSync
    rw [hv1, hv2, hr]
    by_cases hre : e.name = "ReserveCacheError" <;>
      simp [hlen, herr, saveCatch, hne, hre]

/-- C3 witness: a fully successful save on `okEnv` returns 1; the same
save against `reserveEnv` (upload raises a reservation conflict) returns
-1 without raising. -/
theorem save_returns_one_or_sentinel_witness :
    (saveCache okEnv ["./dist"] "build-123" false "none").1 = .ok 1 ∧
    (saveCache reserveEnv ["./dist"] "build-123" false "none").1 = .ok (-1) := by
  constructor
  · exact (save_returns_one_or_sentinel okEnv ["./dist"] ["./dist"] "build-123"
      "/tmp/cache-dir" false "none" rfl rfl rfl (by decide) rfl).1 _ rfl
  · exact (save_returns_one_or_sentinel reserveEnv ["./dist"] ["./dist"]
      "build-123" "/tmp/cache-dir" false "none" rfl rfl rfl (by decide) rfl).2.1
      (mkReserveCacheError "already reserved") _ rfl (by decide)

/-- C4: once a save or restore reaches its `try` block, the temporary
archive file's deletion is attempted on every exit path (the trace always
contains an unlink event); replacing the `unlinkFile` collaborator — in
particular by one that always fails — never changes the operation's
result; and a failing deletion is debug-logged. -/
theorem archive_cleanup_guarantee (env : Env)
    (f : String → Except JsError Unit) (paths cachePaths : List String)
    (primaryKey key archiveFolder : String) (restoreKeys : List String)
    (lookupOnly enableCrossOsArchive : Bool) (customCompression : String)
    (d : JsError)
    (hv1 : checkPaths paths = .ok ())
    (hv2 : ¬ (primaryKey :: restoreKeys).length > 10)
    (hv3 : checkKeys (primaryKey :: restoreKeys) = .ok ())
    (hk : checkKey key = .ok ())
    (hr : env.resolvePaths paths = .ok cachePaths)
    (hnz : cachePaths ≠ [])
    (ht : env.createTempDirectory = .ok archiveFolder) :
    (restoreCache env paths primaryKey restoreKeys lookupOnly
      enableCrossOsArchive customCompression).2.any Event.isUnlink = true ∧
    (saveCache env paths key enableCrossOsArchive
      customCompression).2.any Event.isUnlink = true ∧
    (restoreCache (Env.withUnlink env f) paths primaryKey restoreKeys
      lookupOnly enableCrossOsArchive customCompression).1
      = (restoreCache env paths primaryKey restoreKeys lookupOnly
        enableCrossOsArchive customCompression).1 ∧
    (saveCache (Env.withUnlink env f) paths key enableCrossOsArchive
      customCompression).1
      = (saveCache env paths key enableCrossOsArchive customCompression).1 ∧
    (env.unlinkFile (archiveFolder ++ "/" ++
        getCacheFileName (getCompressionMethod customCompression)) = .error d →
      Event.debug ("Failed to delete archive: " ++ d.name ++ ": " ++ d.message)
        ∈ (saveCache env paths key enableCrossOsArchive customCompression).2) := by
  refine ⟨?_, ?_, ?_, ?_, ?_⟩
  · rw [restoreCache_eq_of_valid env lookupOnly enableCrossOsArchive
      customCompression hv1 hv2 hv3]
    exact withUnlinkFinally_any_unlink env _ _
  · rw [saveCache_eq_of_valid env enableCrossOsArchive customCompression
      hv1 hk hr hnz ht]
    dsimp only
    simp [List.any_append, withUnlinkFinally_any_unlink]
  · rw [restoreCache_eq_of_valid (Env.withUnlink env f) lookupOnly
        enableCrossOsArchive customCompression hv1 hv2 hv3,
      restoreCache_eq_of_valid env lookupOnly enableCrossOsArchive
        customCompression hv1 hv2 hv3,
      withUnlinkFinally_fst, withUnlinkFinally_fst, restoreTryBody_withUnlink]
  · have hr' : (Env.withUnlink env f).resolvePaths paths = .ok cachePaths := by
      rw [withUnlink_resolvePaths]
      exact hr
    have ht' : (Env.withUnlink env f).createTempDirectory = .ok archiveFolder := by
      rw [withUnlink_createTempDirectory]
      exact ht
    rw [saveCache_eq_of_valid (Env.withUnlink env f) enableCrossOsArchive
        customCompression hv1 hk hr' hnz ht',
      saveCache_eq_of_valid env enableCrossOsArchive customCompression
        hv1 hk hr hnz ht]
    dsimp only
    rw [withUnlinkFinally_fst, withUnlinkFinally_fst, saveTryBody_withUnlink]
  · intro hu
    rw [saveCache_eq_of_valid env enableCrossOsArchive customCompression
      hv1 hk hr hnz ht]
    dsimp only
    refine List.mem_append_right _ ?_
    exact withUnlinkFinally_debug_mem _ hu

/-- C4 witness: against `unlinkFailEnv` (deletion always fails) a
validated restore still records the unlink attempt, the save result is
unchanged when deletion is replaced by a succeeding one, and the
deletion failure is debug-logged in the save trace. -/
theorem archive_cleanup_guarantee_witness :
    (restoreCache unlinkFailEnv ["./dist"] "k1" [] false false
      "none").2.any Event.isUnlink = true ∧
    (saveCache (Env.withUnlink unlinkFailEnv (fun _ => .ok ())) ["./dist"]
      "build-1" false "none").1
      = (saveCache unlinkFailEnv ["./dist"] "build-1" false "none").1 ∧
    Event.debug "Failed to delete archive: Error: EPERM"
      ∈ (saveCache unlinkFailEnv ["./dist"] "build-1" false "none").2 := by
  have h := archive_cleanup_guarantee unlinkFailEnv (fun _ => .ok ())
    ["./dist"] ["./dist"] "k1" "build-1" "/tmp/cache-dir" [] false false "none"
    ⟨"Error", "EPERM"⟩ rfl (by decide) rfl rfl rfl (by decide) rfl
  exact ⟨h.1, h.2.2.2.1, h.2.2.2.2 rfl⟩

/-- C10: fatal-versus-swallowed classification is decided solely by the
caught error's `name` string.  Whatever the `try` block raises — the
remote client and codec included — each of the four operations rethrows
exactly when the name is `"ValidationError"`; a save treats the error as
a reservation conflict (info log, `-1`) exactly when the name is
`"ReserveCacheError"`, and otherwise warns and returns `-1`. -/
theorem error_dispatch_by_name (env : Env) (paths cachePaths : List String)
    (primaryKey key archiveFolder : String) (restoreKeys : List String)
    (lookupOnly enableCrossOsArchive : Bool) (customCompression : String)
    (hv1 : checkPaths paths = .ok ())
    (hv2 : ¬ (primaryKey :: restoreKeys).length > 10)
    (hv3 : checkKeys (primaryKey :: restoreKeys) = .ok ())
    (hkp : checkKey primaryKey = .ok ())
    (hk : checkKey key = .ok ())
    (hr : env.resolvePaths paths = .ok cachePaths)
    (hnz : cachePaths ≠ [])
    (ht : env.createTempDirectory = .ok archiveFolder) :
    (∀ e tr ap, restoreTryBody env (primaryKey :: restoreKeys) paths
        customCompression (getCompressionMethod customCompression) lookupOnly
        enableCrossOsArchive = (.error e, tr, ap) →
      ((e.name = "ValidationError" →
        (restoreCache env paths primaryKey restoreKeys lookupOnly
          enableCrossOsArchive customCompression).1 = .error e) ∧
       (e.name ≠ "ValidationError" →
        (restoreCache env paths primaryKey restoreKeys lookupOnly
          enableCrossOsArchive customCompression).1 = .ok none))) ∧
    (∀ e tr, restoreSyncTryBody env primaryKey paths lookupOnly
        = (.error e, tr) →
      ((e.name = "ValidationError" →
        (restoreCacheSync env paths primaryKey lookupOnly).1 = .error e) ∧
       (e.name ≠ "ValidationError" →
        (restoreCacheSync env paths primaryKey lookupOnly).1 = .ok none))) ∧
    (∀ e tr, saveTryBody env key paths cachePaths archiveFolder
        (archiveFolder ++ "/" ++
          getCacheFileName (getCompressionMethod customCompression))
        customCompression (getCompressionMethod customCompression)
        enableCrossOsArchive = (.error e, tr) →
      ((e.name = "ValidationError" →
        (saveCache env paths key enableCrossOsArchive
          customCompression).1 = .error e) ∧
       (e.name = "ReserveCacheError" →
        (saveCache env paths key enableCrossOsArchive
          customCompression).1 = .ok (-1) ∧
        Event.info ("Failed to save: " ++ e.message)
          ∈ (saveCache env paths key enableCrossOsArchive
            customCompression).2) ∧
       (e.name ≠ "ValidationError" → e.name ≠ "ReserveCacheError" →
        (saveCache env paths key enableCrossOsArchive
          customCompression).1 = .ok (-1) ∧
        Event.warning ("Failed to save: " ++ e.message)
          ∈ (saveCache env paths key enableCrossOsArchive
            customCompression).2))) ∧
    (∀ e, env.saveCacheHttpSync key paths = .error e →
      ((e.name = "ValidationError" →
        (saveCacheSync env paths key).1 = .error e) ∧
       (e.name = "ReserveCacheError" →
        (saveCacheSync env paths key).1 = .ok (-1) ∧
        Event.info ("Failed to save: " ++ e.message)
          ∈ (saveCacheSync env paths key).2) ∧
       (e.name ≠ "ValidationError" → e.name ≠ "ReserveCacheError" →
        (saveCacheSync env paths key).1 = .ok (-1) ∧
        Event.warning ("Failed to save: " ++ e.message)
          ∈ (saveCacheSync env paths key).2))) := by
  have hlen : ¬ cachePaths.length = 0 :=
    fun hl => hnz (List.length_eq_zero.mp hl)
  refine ⟨?_, ?_, ?_, ?_⟩
  · intro e tr ap htb
    rw [restoreCache_eq_of_valid env lookupOnly enableCrossOsArchive
      customCompression hv1 hv2 hv3, htb]
    constructor
    · intro hn
      simp [withUnlinkFinally, restoreCatch, hn]
    · intro hn
      simp [withUnlinkFinally, restoreCatch, hn]
  · intro e tr htb
    unfold restoreCacheSync
    rw [hv1, hkp]
    dsimp only
    rw [htb]
    constructor
    · intro hn
      simp [restoreCatch, hn]
    · intro hn
      simp [restoreCatch, hn]
  · intro e tr htb
    rw [saveCache_eq_of_valid env enableCrossOsArchive customCompression
      hv1 hk hr hnz ht]
    dsimp only
    rw [htb]
    refine ⟨?_, ?_, ?_⟩
    · intro hn
      simp [withUnlinkFinally, saveCatch, hn]
    · intro hn
      have hnv : e.name ≠ "ValidationError" := by
        rw [hn]
        decide
      constructor
      · simp [withUnlinkFinally, saveCatch, hn, hnv]
      · rcases hu : env.unlinkFile (archiveFolder ++ "/" ++
          getCacheFileName (getCompressionMethod customCompression)) with du | uu <;>
          simp [withUnlinkFinally, saveCatch, hn, hnv, hu, List.mem_append]
    · intro hnv hnr
      constructor
      · simp [withUnlinkFinally, saveCatch, hnv, hnr]
      · rcases hu : env.unlinkFile (archiveFolder ++ "/" ++
          getCacheFileName (getCompressionMethod customCompression)) with du | uu <;>
          simp [withUnlinkFinally, saveCatch, hnv, hnr, hu, List.mem_append]
  · intro e herr
    unfold saveCacheSync
    rw [hv1, hk, hr]
    refine ⟨?_, ?_, ?_⟩
    · intro hn
      simp [hlen, herr, saveCatch, hn]
    · intro hn
      have hnv : e.name ≠ "ValidationError" := by
        rw [hn]
        decide
      simp [hlen, herr, saveCatch, hn, hnv]
    · intro hnv hnr
      simp [hlen, herr, saveCatch, hnv, hnr]

/-- C10 witness: an error from the remote download merely *named*
`ValidationError` (`fakeValidationEnv`) is rethrown by `restoreCache`,
and a sync upload raising a `ReserveCacheError` leaves `saveCacheSync`
at the `-1` sentinel with an info log. -/
theorem error_dispatch_by_name_witness :
    (restoreCache fakeValidationEnv ["./dist"] "k1" [] false false "none").1
      = .error ⟨"ValidationError", "remote says no"⟩ ∧
    (saveCacheSync reserveEnv ["./dist"] "build-1").1 = .ok (-1) := by
  constructor
  · exact ((error_dispatch_by_name fakeValidationEnv ["./dist"] ["./dist"]
      "k1" "build-1" "/tmp/cache-dir" [] false false "none" rfl (by decide)
      rfl rfl rfl rfl (by decide) rfl).1
      ⟨"ValidationError", "remote says no"⟩ _ _ rfl).1 rfl
  · exact (((error_dispatch_by_name reserveEnv ["./dist"] ["./dist"]
      "k1" "build-1" "/tmp/cache-dir" [] false false "none" rfl (by decide)
      rfl rfl rfl rfl (by decide) rfl).2.2.2
      (mkReserveCacheError "already reserved") rfl).2.1 rfl).1

theorem restoreTryRest_ok_extract {env : Env} {keys paths : List String}
    {m : String} {cross : Bool} {v : String}
    (h : (restoreTryRest env keys paths "" m false cross).1 = .ok (some v)) :
    (restoreTryRest env keys paths "" m false cross).2.1.any
      Event.isExtract = true := by
  revert h
  unfold restoreTryRest
  rcases hg : env.getCacheEntry keys paths m cross with e | ce
  · intro h
    exact absurd h (by simp)
  · by_cases hm : entryMissing ce = true
    · simp only [hm, if_true]
      intro h
      exact absurd h (by simp)
    · simp only [Bool.not_eq_true] at hm
      simp only [hm, Bool.false_eq_true, if_false]
      rcases htd : env.createTempDirectory with e | tmp
      · intro h
        exact absurd h (by simp)
      · dsimp only
        intro h
        have := restoreAfterTemp_ok_extract h
        simp [this, Event.isExtract]

/-- C1 counterexample: with the sentinel identifier `"none"` (the
source's default) on a non-Windows platform, a hit restore shells out to
the external `tar` process and never calls `extractTar`, and the
matching save never calls `createTar` — the trace of a fully successful
run on `okEnv` contains an `exec` event and no internal-codec event. -/
theorem none_sentinel_uses_external_archiver_cex :
    (restoreCache okEnv ["./dist"] "k1" [] false false
      "none").2.any Event.isExtract = false ∧
    (restoreCache okEnv ["./dist"] "k1" [] false false
      "none").2.any Event.isExec = true ∧
    (restoreCache okEnv ["./dist"] "k1" [] false false "none").1
      = .ok (some "build-42") ∧
    (saveCache okEnv ["./dist"] "build-123" false
      "none").2.any Event.isCreateTar = false ∧
    (saveCache okEnv ["./dist"] "build-123" false
      "none").2.any Event.isExec = true ∧
    (saveCache okEnv ["./dist"] "build-123" false "none").1 = .ok 1 :=
  ⟨rfl, rfl, rfl, rfl, rfl, rfl⟩

/-- C1 (amended): the internal codec path is taken exactly when the
custom-compression identifier is *empty* (falsy in the source), not when
it is the sentinel `"none"`: with an empty identifier no external
archiver process is ever invoked, a successful non-lookup-only restore
extracts via `extractTar`, and a successful save builds the archive via
`createTar`. -/
theorem internal_codec_iff_empty_identifier (env : Env) (paths : List String)
    (primaryKey key : String) (restoreKeys : List String)
    (lookupOnly enableCrossOsArchive : Bool) :
    (restoreCache env paths primaryKey restoreKeys lookupOnly
      enableCrossOsArchive "").2.any Event.isExec = false ∧
    (∀ k, (restoreCache env paths primaryKey restoreKeys false
        enableCrossOsArchive "").1 = .ok (some k) →
      (restoreCache env paths primaryKey restoreKeys false
        enableCrossOsArchive "").2.any Event.isExtract = true) ∧
    (saveCache env paths key enableCrossOsArchive "").2.any
      Event.isExec = false ∧
    ((saveCache env paths key enableCrossOsArchive "").1 = .ok 1 →
      (saveCache env paths key enableCrossOsArchive "").2.any
        Event.isCreateTar = true) := by
  refine ⟨?_, ?_, ?_, ?_⟩
  · unfold restoreCache
    rcases hcp : checkPaths paths with e1 | u1
    · simp
    · by_cases hlen : (primaryKey :: restoreKeys).length > 10
      · have hlen' : 10 < restoreKeys.length + 1 := by simpa using hlen
        simp [hlen']
      · rw [if_neg hlen]
        rcases hck : checkKeys (primaryKey :: restoreKeys) with e2 | u2
        · simp
        · dsimp only
          rw [withUnlinkFinally_trace_any env _ _ Event.isExec rfl
            (fun s => rfl)]
          rw [restoreCatch_trace_any _ Event.isExec (fun s => rfl)]
          have hcons : (restoreTryBody env (primaryKey :: restoreKeys) paths ""
              (getCompressionMethod "") lookupOnly enableCrossOsArchive).2.1
              = Event.getCacheEntryEv (primaryKey :: restoreKeys) paths ::
              (restoreTryRest env (primaryKey :: restoreKeys) paths ""
                (getCompressionMethod "") lookupOnly
                enableCrossOsArchive).2.1 := rfl
          rw [hcons]
          simp [Event.isExec, restoreTryRest_no_exec]
  · intro k hres
    rcases hcp : checkPaths paths with e1 | u1
    · unfold restoreCache at hres
      rw [hcp] at hres
      exact absurd hres (by simp)
    · cases u1
      by_cases hlen : (primaryKey :: restoreKeys).length > 10
      · unfold restoreCache at hres
        rw [hcp, if_pos hlen] at hres
        exact absurd hres (by simp)
      · rcases hck : checkKeys (primaryKey :: restoreKeys) with e2 | u2
        · unfold restoreCache at hres
          rw [hcp, if_neg hlen, hck] at hres
          exact absurd hres (by simp)
        · cases u2
          rw [restoreCache_eq_of_valid env false enableCrossOsArchive ""
            hcp hlen hck] at hres ⊢
          rw [withUnlinkFinally_fst] at hres
          have h1 := restoreCatch_fst_ok hres
          rw [withUnlinkFinally_trace_any env _ _ Event.isExtract rfl
            (fun s => rfl)]
          rw [restoreCatch_trace_any _ Event.isExtract (fun s => rfl)]
          have hcons : (restoreTryBody env (primaryKey :: restoreKeys) paths ""
              (getCompressionMethod "") false enableCrossOsArchive).2.1
              = Event.getCacheEntryEv (primaryKey :: restoreKeys) paths ::
              (restoreTryRest env (primaryKey :: restoreKeys) paths ""
                (getCompressionMethod "") false enableCrossOsArchive).2.1 := rfl
          rw [hcons]
          have h2 : (restoreTryRest env (primaryKey :: restoreKeys) paths ""
              (getCompressionMethod "") false enableCrossOsArchive).1
              = .ok (some k) := h1
          simp [Event.isExtract, restoreTryRest_ok_extract h2]
  · unfold saveCache
    rcases hcp : checkPaths paths with e1 | u1
    · simp [Event.isExec]
    · rcases hck : checkKey key with e2 | u2
      · simp [Event.isExec]
      · rcases hr : env.resolvePaths paths with e3 | cps
        · simp [Event.isExec]
        · dsimp only
          by_cases hz : cps.length = 0
          · simp [hz, Event.isExec]
          · rw [if_neg hz]
            rcases htd : env.createTempDirectory with e4 | folder
            · simp [Event.isExec]
            · dsimp only
              rw [List.any_append]
              rw [withUnlinkFinally_trace_any env _ _ Event.isExec rfl
                (fun s => rfl)]
              rw [saveCatch_trace_any _ Event.isExec (fun s => rfl)
                (fun s => rfl)]
              simp [Event.isExec, saveTryBody_no_exec]
  · intro hres
    rcases hcp : checkPaths paths with e1 | u1
    · unfold saveCache at hres
      rw [hcp] at hres
      exact absurd hres (by simp)
    · cases u1
      rcases hck : checkKey key with e2 | u2
      · unfold saveCache at hres
        rw [hcp, hck] at hres
        exact absurd hres (by simp)
      · cases u2
        rcases hr : env.resolvePaths paths with e3 | cps
        · unfold saveCache at hres
          rw [hcp, hck, hr] at hres
          exact absurd hres (by simp)
        · by_cases hz : cps.length = 0
          · unfold saveCache at hres
            rw [hcp, hck, hr] at hres
            simp [hz] at hres
          · rcases htd : env.createTempDirectory with e4 | folder
            · unfold saveCache at hres
              rw [hcp, hck, hr] at hres
              simp [hz, htd] at hres
            · have hnz : cps ≠ [] := fun hh => hz (by simp [hh])
              rw [saveCache_eq_of_valid env enableCrossOsArchive ""
                hcp hck hr hnz htd] at hres ⊢
              dsimp only at hres ⊢
              rw [List.any_append]
              rw [withUnlinkFinally_trace_any env _ _ Event.isCreateTar rfl
                (fun s => rfl)]
              rw [saveCatch_trace_any _ Event.isCreateTar (fun s => rfl)
                (fun s => rfl)]
              simp [Event.isCreateTar, saveTryBody_any_createTar]

/-- C1 (amended) witness: on `okEnv` with the empty identifier, a hit
restore extracts through the internal codec and a successful save builds
the archive through `createTar`, with no external process in either
trace. -/
theorem internal_codec_iff_empty_identifier_witness :
    (restoreCache okEnv ["./dist"] "k1" [] false false
      "").2.any Event.isExec = false ∧
    (restoreCache okEnv ["./dist"] "k1" [] false false
      "").2.any Event.isExtract = true ∧
    (saveCache okEnv ["./dist"] "build-123" false "").2.any
      Event.isCreateTar = true := by
  have h := internal_codec_iff_empty_identifier okEnv ["./dist"] "k1"
    "build-123" [] false false
  exact ⟨h.1, h.2.1 "build-42" rfl, h.2.2.2 rfl⟩

end RunsOnCache
